import Mathlib

/-!
Verification development for the agentiny reactive rule engine
(packages/core: `state.ts`, `conditions.ts`, `actions.ts`, `agent.ts`).

The TypeScript sources are shallowly embedded as executable Lean
definitions.  JavaScript `Map`/`Set` objects are modelled as
insertion-ordered association lists, thrown values as an explicit
`ThrownVal` type, and the side effects observable from outside the agent
(calls of the configured `onError` sink, settle-promise resolutions and
rejections, timer cancellations) as an explicit event list returned by
each operation.  Time (the 10ms poll sleep, trigger `delay`, `setTimeout`
deadlines) is not modelled; a timer firing is represented by applying the
corresponding callback function to the current agent state.  Awaiting a
sync or async value (`await Promise.resolve(x)`) is the identity in this
sequential model, matching the cooperative single-threaded execution of
the loop.
-/

namespace Agentiny

/-- Context object attached to an `AgentError` (the `context` constructor
argument in `agent.ts`). -/
inductive ErrCtx where
  | noCtx : ErrCtx
  | triggerId (id : String) : ErrCtx
  | statusCtx (statusName : String) : ErrCtx
  | quietCyclesCtx (quietCycles : Int) : ErrCtx
  | settleTimeoutCtx (timeout : Int) (quietCycles : Int) (currentQuietCycles : Int) : ErrCtx
  | pendingSettlesCtx (pendingSettles : Nat) : ErrCtx
deriving DecidableEq, Repr

/-- A JavaScript `Error` value: `message`, and for `AgentError`
additionally a `code` and a `context` (plain errors carry `code := ""`
and `context := .noCtx`). -/
structure JsError where
  message : String
  code : String := ""
  context : ErrCtx := ErrCtx.noCtx
deriving DecidableEq, Repr

/-- A JavaScript thrown value: either an `Error` instance or any other
value, the latter represented by its stringified form `String(value)`. -/
inductive ThrownVal where
  | errorVal (e : JsError) : ThrownVal
  | otherVal (stringified : String) : ThrownVal
deriving DecidableEq, Repr

/-- The normalization performed by the `catch` blocks in `actions.ts` and
`agent.ts`: an `Error` instance is kept, any other thrown value is
wrapped in `new Error(String(error))`. -/
def normalizeThrown : ThrownVal → JsError
  | ThrownVal.errorVal e => e
  | ThrownVal.otherVal s => { message := s }

/-! ### Insertion-ordered association lists (JS `Map`) -/

/-- `Map.get`: first binding of the key, if any. -/
def alGet (l : List (String × α)) (k : String) : Option α :=
  (l.find? (fun p => p.1 = k)).map (fun p => p.2)

/-- `Map.has`. -/
def alHas (l : List (String × α)) (k : String) : Bool :=
  l.any (fun p => p.1 = k)

/-- `Map.set`: update in place when the key is present (keeping its
position, as a JS `Map` does), append otherwise. -/
def alSet (l : List (String × α)) (k : String) (v : α) : List (String × α) :=
  if alHas l k then l.map (fun p => if p.1 = k then (k, v) else p)
  else l ++ [(k, v)]

/-- `Map.delete`. -/
def alDelete (l : List (String × α)) (k : String) : List (String × α) :=
  l.filter (fun p => p.1 ≠ k)

/-! ### `state.ts` — minimal reactive state container -/

/-- A subscriber callback registered on the container.  Running it on the
new value either returns normally (`none`) or throws (`some t`).  The
`sid` field identifies the callback so invocation traces can be stated. -/
structure Subscriber (V : Type) where
  sid : Nat
  run : V → Option ThrownVal

/-- The `State<T>` class of `state.ts`: a value plus the registered
subscribers (a JS `Set`, iterated in insertion order). -/
structure StateC (V : Type) where
  value : V
  subscribers : List (Subscriber V)

/-- `State._notify` of `packages/core/src/state.ts` (lines 53–55):
`this._subscribers.forEach((cb) => cb(this._value))`.  There is no
`try`/`catch`, so an exception thrown by a subscriber propagates out of
`forEach` immediately and the remaining subscribers are not invoked.
Returns the ids of the subscribers that were invoked, in order, and the
escaping exception if one was thrown. -/
def notifyRun (v : V) : List (Subscriber V) → List Nat × Option ThrownVal
  | [] => ([], none)
  | s :: rest =>
    match s.run v with
    | some t => ([s.sid], some t)
    | none =>
      let r := notifyRun v rest
      (s.sid :: r.1, r.2)

/-- `State.set` (lines 34–37): store the new value, then `_notify()`.
Result: the updated container, the invoked subscriber ids, and the
exception escaping to the caller of `set`, if any. -/
def StateC.set (st : StateC V) (v : V) : StateC V × List Nat × Option ThrownVal :=
  let st1 : StateC V := { st with value := v }
  let r := notifyRun v st1.subscribers
  (st1, r.1, r.2)

/-- `State.subscribe`: add the callback to the subscriber set.  A JS
`Set` ignores a duplicate insertion; callbacks are identified by `sid`. -/
def StateC.subscribe (st : StateC V) (s : Subscriber V) : StateC V :=
  if st.subscribers.any (fun x => x.sid = s.sid) then st
  else { st with subscribers := st.subscribers ++ [s] }

/-! ### `conditions.ts` — condition evaluator -/

/-- Outcome of invoking a condition or check predicate: it returns a
boolean (after awaiting, for async predicates) or throws/rejects. -/
inductive COutcome where
  | ret (b : Bool) : COutcome
  | threw (t : ThrownVal) : COutcome
deriving DecidableEq, Repr

/-- A guard predicate (`ConditionFn`), tagged with an id so invocation
traces can be stated. -/
structure Condition (S : Type) where
  cid : Nat
  run : S → COutcome

/-- Whether invoking condition `c` on `s` fails: it returns `false` or it
throws.  (Derived notion used to state properties.) -/
def condFails (c : Condition S) (s : S) : Bool :=
  match c.run s with
  | COutcome.ret true => false
  | COutcome.ret false => true
  | COutcome.threw _ => true

/-- `evaluateConditions` of `conditions.ts`: empty list gives `true`;
otherwise the conditions are evaluated sequentially, stopping with
`false` at the first one that returns `false` or throws (the `catch`
block returns `false`, so the error is swallowed).  The returned trace
lists the ids of the conditions that were invoked, in order. -/
def evaluateConditions (conds : List (Condition S)) (s : S) : List Nat × Bool :=
  match conds with
  | [] => ([], true)
  | c :: rest =>
    match c.run s with
    | COutcome.ret true =>
      let r := evaluateConditions rest s
      (c.cid :: r.1, r.2)
    | COutcome.ret false => ([c.cid], false)
    | COutcome.threw _ => ([c.cid], false)

/-! ### `actions.ts` — action runner -/

/-- An effect in the action runner's input list (`ActionFn`), tagged with
an id for invocation traces.  Running it on the world `w` yields the
world after its mutations together with the value it threw, if any
(mutations performed before the throw persist). -/
structure ActionF (W : Type) where
  aid : Nat
  run : W → W × Option ThrownVal

/-- `executeActions` of `actions.ts`: run every action sequentially,
catching each thrown value individually, normalizing it and appending it
to the error list, and continuing with the next action.  Returns the
invocation trace (action ids in order), the final world, and the
accumulated error list. -/
def executeActions (actions : List (ActionF W)) (w : W) : List Nat × W × List JsError :=
  match actions with
  | [] => ([], w, [])
  | a :: rest =>
    let r1 := a.run w
    let r2 := executeActions rest r1.1
    match r1.2 with
    | none => (a.aid :: r2.1, r2.2.1, r2.2.2)
    | some t => (a.aid :: r2.1, r2.2.1, normalizeThrown t :: r2.2.2)

/-- The per-action thrown outcomes of a run of `executeActions`,
threading the world through the list (derived notion used to state
properties about the error list). -/
def thrownOutcomes : List (ActionF W) → W → List (Option ThrownVal)
  | [], _ => []
  | a :: rest, w => (a.run w).2 :: thrownOutcomes rest (a.run w).1

/-! ### `agent.ts` — data model -/

/-- `AgentStatus` (`types.ts`): `idle`, `running`, `stopped`. -/
inductive AgStatus where
  | idle : AgStatus
  | running : AgStatus
  | stopped : AgStatus
deriving DecidableEq, Repr

/-- An action stored in a trigger.  In the source an action is any
function `(state) => void | Promise<void>`; it receives the live state
object and may also invoke agent methods through a captured reference to
the agent.  The embedding represents the behaviours over which the
claims quantify:

* `act f` — a plain action that mutates the state contents (through the
  live reference, so without notifying subscribers) and possibly throws;
  `f` returns the mutated contents and the thrown value, if any;
* `setStateA f` — an action whose body calls `agent.setState(...)`;
* `emitEventA name` — an action whose body calls `agent.emitEvent(name)`;
* `removeTriggerA id` — an action whose body calls
  `agent.removeTrigger(id)`, whose `TRIGGER_NOT_FOUND` throw, if any,
  escapes the action. -/
inductive AAction (S : Type) where
  | act (f : S → S × Option ThrownVal) : AAction S
  | setStateA (f : S → S) : AAction S
  | emitEventA (name : String) : AAction S
  | removeTriggerA (id : String) : AAction S

/-- A trigger's `check` function: either a plain predicate over the
state (possibly throwing), or the event-ledger comparison closure that
`Agent.on` builds, which captures the event name (and uses the trigger's
own id) and reads and writes the agent's ledger maps. -/
inductive CheckFn (S : Type) where
  | stateCheck (f : S → COutcome) : CheckFn S
  | eventCheck (event : String) : CheckFn S

/-- The `Trigger` interface of `types.ts`.  `conditions`, `repeatFlag`
(the source's optional `repeat` field) and `delay` are optional; actions
are tagged with ids for invocation traces. -/
structure Trigger (S : Type) where
  id : String
  check : CheckFn S
  conditions : Option (List (Condition S)) := none
  actions : List (Nat × AAction S)
  repeatFlag : Option Bool := none
  delay : Option Nat := none

/-- A pending `settle()` promise (the source's `SettleResolver`):
the requested threshold, the configured timeout, and an id standing for
the promise identity (`resolve`/`reject` closures and `timeoutId`). -/
structure SettleResolver where
  rid : Nat
  quietCycles : Int
  timeoutMs : Int
deriving DecidableEq, Repr

/-- The mutable fields of an `Agent` instance.  JS `Map`s are
association lists in insertion order; `_eventTriggers`' `Set` values are
duplicate-free lists in insertion order. -/
structure AgentState (S : Type) where
  stateVal : S
  triggers : List (String × Trigger S)
  status : AgStatus
  shouldRun : Bool
  stateChanged : Bool
  eventEmissionCount : List (String × Nat)
  eventLastSeenByTrigger : List (String × List (String × Nat))
  eventTriggers : List (String × List String)
  triggerIdCounter : Nat
  consecutiveQuietCycles : Nat
  settleResolvers : List SettleResolver

/-- Observable side effects of an agent operation: a call of the
configured `onError` sink, a settle-promise resolution or rejection, or
a `clearTimeout` on a settle timer. -/
inductive AgEvent where
  | sinkError (e : JsError) : AgEvent
  | settleResolved (rid : Nat) : AgEvent
  | settleRejected (rid : Nat) (e : JsError) : AgEvent
  | timerCancelled (rid : Nat) : AgEvent
deriving DecidableEq, Repr

/-! ### `agent.ts` — operations -/

def statusName : AgStatus → String
  | AgStatus.idle => "idle"
  | AgStatus.running => "running"
  | AgStatus.stopped => "stopped"

/-- `Agent.getState`. -/
def Agent.getState (ag : AgentState S) : S := ag.stateVal

/-- `Agent.setState`: `this._state.set(newState)` — replaces the value
and notifies subscribers; the constructor-installed internal subscriber
sets `_stateChanged` (external subscribers are not modelled here). -/
def Agent.setState (ag : AgentState S) (v : S) : AgentState S :=
  { ag with stateVal := v, stateChanged := true }

/-- `Agent.getStatus`. -/
def Agent.getStatus (ag : AgentState S) : AgStatus := ag.status

/-- `Agent.isRunning`. -/
def Agent.isRunning (ag : AgentState S) : Bool := ag.status = AgStatus.running

/-- `Agent.addTrigger` (lines 157–164): throw `DUPLICATE_TRIGGER` when
the id is already present (leaving the instance untouched), otherwise
insert into the trigger map. -/
def Agent.addTrigger (ag : AgentState S) (t : Trigger S) : AgentState S × Option JsError :=
  if alHas ag.triggers t.id then
    (ag, some { message := "Trigger with id " ++ t.id ++ " already exists",
                code := "DUPLICATE_TRIGGER", context := ErrCtx.triggerId t.id })
  else
    ({ ag with triggers := ag.triggers ++ [(t.id, t)] }, none)

/-- `Agent.getTrigger`. -/
def Agent.getTrigger (ag : AgentState S) (id : String) : Option (Trigger S) :=
  alGet ag.triggers id

/-- `Agent.getAllTriggers`: snapshot list in insertion order. -/
def Agent.getAllTriggers (ag : AgentState S) : List (Trigger S) :=
  ag.triggers.map (fun p => p.2)

/-- `Agent.removeTrigger` (lines 196–215): throw `TRIGGER_NOT_FOUND`
when absent; otherwise delete the trigger, purge the id from every
per-event watermark map, and delete the id from every event association,
dropping associations that become empty. -/
def Agent.removeTrigger (ag : AgentState S) (id : String) : AgentState S × Option JsError :=
  if ¬ alHas ag.triggers id then
    (ag, some { message := "Trigger with id " ++ id ++ " not found",
                code := "TRIGGER_NOT_FOUND", context := ErrCtx.triggerId id })
  else
    ({ ag with
        triggers := alDelete ag.triggers id,
        eventLastSeenByTrigger :=
          ag.eventLastSeenByTrigger.map (fun p => (p.1, alDelete p.2 id)),
        eventTriggers :=
          (ag.eventTriggers.map (fun p => (p.1, p.2.filter (fun x => x ≠ id)))).filter
            (fun p => p.2 ≠ []) },
     none)

/-- `Agent.clearTriggers` (lines 225–227): empty the trigger map only. -/
def Agent.clearTriggers (ag : AgentState S) : AgentState S :=
  { ag with triggers := [] }

/-- The constructor's trigger registration
(`config.triggers.forEach((trigger) => this.addTrigger(trigger))`): each
initial trigger goes through `Agent.addTrigger`; a throw aborts the
`forEach` and escapes the constructor. -/
def addTriggersFromConfig (ag : AgentState S) : List (Trigger S) → AgentState S × Option JsError
  | [] => (ag, none)
  | t :: rest =>
    let r := Agent.addTrigger ag t
    match r.2 with
    | some e => (r.1, some e)
    | none => addTriggersFromConfig r.1 rest

/-- The `Agent` constructor: field initializers (`_status = Idle`,
`_stateChanged = true`, empty maps and counters), then registration of
the configured initial triggers through `Agent.addTrigger`. -/
def mkAgent (initialState : S) (triggers : List (Trigger S)) :
    AgentState S × Option JsError :=
  let ag : AgentState S :=
    { stateVal := initialState, triggers := [], status := AgStatus.idle,
      shouldRun := false, stateChanged := true, eventEmissionCount := [],
      eventLastSeenByTrigger := [], eventTriggers := [], triggerIdCounter := 0,
      consecutiveQuietCycles := 0, settleResolvers := [] }
  addTriggersFromConfig ag triggers

/-- `Agent.start` (lines 244–268): throw `AGENT_ALREADY_RUNNING` when
already running (the `catch` forwards the error to the sink before
rethrowing); otherwise set `Running`, raise `_shouldRun` and
`_stateChanged`, reset the quiet-cycle counter, and clear the event
emission counts, the per-trigger watermarks and the event→trigger-id
associations.  (Spawning the loop promise is not part of the state.) -/
def Agent.start (ag : AgentState S) : AgentState S × List AgEvent × Option JsError :=
  if ag.status = AgStatus.running then
    let e : JsError := { message := "Agent is already running",
                         code := "AGENT_ALREADY_RUNNING",
                         context := ErrCtx.statusCtx (statusName ag.status) }
    (ag, [AgEvent.sinkError e], some e)
  else
    ({ ag with
        status := AgStatus.running, shouldRun := true, stateChanged := true,
        consecutiveQuietCycles := 0, eventEmissionCount := [],
        eventLastSeenByTrigger := [], eventTriggers := [] },
     [], none)

/-- `Agent.stop` (lines 284–319): throw `AGENT_NOT_RUNNING` when not
running; otherwise set `Stopped`, lower `_shouldRun`, and for every
pending settle resolver cancel its timer and reject it with the
`AGENT_STOPPED` error, then empty the resolver list.  (Awaiting the
loop's final iteration is a synchronisation step with no state effect
here.) -/
def Agent.stop (ag : AgentState S) : AgentState S × List AgEvent × Option JsError :=
  if ag.status ≠ AgStatus.running then
    let e : JsError := { message := "Agent is not running",
                         code := "AGENT_NOT_RUNNING",
                         context := ErrCtx.statusCtx (statusName ag.status) }
    (ag, [AgEvent.sinkError e], some e)
  else
    let settleError : JsError :=
      { message := "Agent stopped while waiting to settle", code := "AGENT_STOPPED",
        context := ErrCtx.pendingSettlesCtx ag.settleResolvers.length }
    let evs := ag.settleResolvers.flatMap
      (fun r => [AgEvent.timerCancelled r.rid, AgEvent.settleRejected r.rid settleError])
    ({ ag with status := AgStatus.stopped, shouldRun := false, settleResolvers := [] },
     evs, none)

/-- Outcome of a call to `Agent.settle` as seen by the caller: a
synchronous throw (no promise is returned), an immediately resolved
promise, or a pending promise identified by `rid`. -/
inductive SettleOutcome where
  | threw (e : JsError) : SettleOutcome
  | resolvedImmediately : SettleOutcome
  | pending (rid : Nat) : SettleOutcome
deriving DecidableEq, Repr

/-- `Agent.settle` (lines 354–393): throw `AGENT_NOT_RUNNING` when not
running and `INVALID_ARGUMENT` when `quietCycles <= 0` — both before any
promise is constructed; resolve immediately when the quiet-cycle counter
already meets the threshold; otherwise arm the timeout timer and push a
resolver.  `rid` is the fresh identity of the new promise. -/
def Agent.settle (ag : AgentState S) (quietCycles timeoutMs : Int) (rid : Nat) :
    AgentState S × SettleOutcome :=
  if ¬ Agent.isRunning ag then
    (ag, SettleOutcome.threw
      { message := "Agent must be running to settle", code := "AGENT_NOT_RUNNING",
        context := ErrCtx.statusCtx (statusName ag.status) })
  else if quietCycles ≤ 0 then
    (ag, SettleOutcome.threw
      { message := "quietCycles must be a positive integer", code := "INVALID_ARGUMENT",
        context := ErrCtx.quietCyclesCtx quietCycles })
  else if (ag.consecutiveQuietCycles : Int) ≥ quietCycles then
    (ag, SettleOutcome.resolvedImmediately)
  else
    ({ ag with settleResolvers :=
        ag.settleResolvers ++ [{ rid := rid, quietCycles := quietCycles, timeoutMs := timeoutMs }] },
     SettleOutcome.pending rid)

/-- The `setTimeout` callback armed by `Agent.settle` (lines 379–389),
applied when resolver `r`'s deadline is reached: remove the resolver
from the list and reject with the `SETTLE_TIMEOUT` error carrying the
configured timeout, the requested threshold, and the quiet-cycle count
observed at that moment. -/
def settleTimeoutFire (ag : AgentState S) (r : SettleResolver) : AgentState S × AgEvent :=
  ({ ag with settleResolvers := ag.settleResolvers.filter (fun x => x.rid ≠ r.rid) },
   AgEvent.settleRejected r.rid
     { message := "settle() timed out waiting for quiet cycles", code := "SETTLE_TIMEOUT",
       context := ErrCtx.settleTimeoutCtx r.timeoutMs r.quietCycles
         (ag.consecutiveQuietCycles : Int) })

/-- `Agent._checkSettleResolvers` (lines 400–413): keep only the
resolvers whose threshold is still above the quiet-cycle counter; each
satisfied resolver has its timer cancelled and is resolved, in list
order. -/
def Agent.checkSettleResolvers (ag : AgentState S) : AgentState S × List AgEvent :=
  let satisfied := ag.settleResolvers.filter
    (fun r => r.quietCycles ≤ (ag.consecutiveQuietCycles : Int))
  let kept := ag.settleResolvers.filter
    (fun r => ¬ (r.quietCycles ≤ (ag.consecutiveQuietCycles : Int)))
  ({ ag with settleResolvers := kept },
   satisfied.flatMap (fun r => [AgEvent.timerCancelled r.rid, AgEvent.settleResolved r.rid]))

/-- `Agent.emitEvent` (lines 572–577): increment the event's emission
counter (from 0 when absent) and set the `_stateChanged` flag. -/
def Agent.emitEvent (ag : AgentState S) (event : String) : AgentState S :=
  let currentCount := (alGet ag.eventEmissionCount event).getD 0
  { ag with
      eventEmissionCount := alSet ag.eventEmissionCount event (currentCount + 1),
      stateChanged := true }

/-- The check closure built by `Agent.on` (lines 631–649), run for the
trigger named `triggerId` listening to `event`: read the current
emission count (0 when absent); materialise the per-event watermark map
when missing; read this trigger's watermark, defaulting to 0 when it has
no entry; when the current count is strictly greater, advance the
watermark to the current count and return `true`, otherwise return
`false`. -/
def runEventCheck (ag : AgentState S) (event triggerId : String) : AgentState S × Bool :=
  let currentEmissionCount := (alGet ag.eventEmissionCount event).getD 0
  let triggerEventMap := (alGet ag.eventLastSeenByTrigger event).getD []
  let ag1 := { ag with
      eventLastSeenByTrigger := alSet ag.eventLastSeenByTrigger event triggerEventMap }
  let lastSeenCount := (alGet triggerEventMap triggerId).getD 0
  if currentEmissionCount > lastSeenCount then
    ({ ag1 with
        eventLastSeenByTrigger := alSet ag1.eventLastSeenByTrigger event
          (alSet triggerEventMap triggerId currentEmissionCount) },
     true)
  else (ag1, false)

/-- `Agent._generateTriggerId` (lines 554–556). -/
def Agent.generateTriggerId (ag : AgentState S) : AgentState S × String :=
  ({ ag with triggerIdCounter := ag.triggerIdCounter + 1 },
   "__trigger_" ++ toString (ag.triggerIdCounter + 1))

/-- `Agent.on` (lines 601–664) after its overload resolution (the
resolved `conditions`, `actions` and the optional `repeat` argument,
which defaults to `true`): generate an id, register a trigger whose
check is the event-ledger comparison closure, and add the id to the
event→trigger-ids association (creating the `Set` when missing).  A
`DUPLICATE_TRIGGER` throw from `addTrigger` would escape before the
association is touched. -/
def Agent.on (ag : AgentState S) (event : String)
    (conditions : Option (List (Condition S))) (actions : List (Nat × AAction S))
    (repeatArg : Option Bool) : AgentState S × String × Option JsError :=
  let g := Agent.generateTriggerId ag
  let triggerId := g.2
  let t : Trigger S :=
    { id := triggerId, check := CheckFn.eventCheck event, conditions := conditions,
      actions := actions, repeatFlag := some (repeatArg.getD true) }
  let r := Agent.addTrigger g.1 t
  match r.2 with
  | some e => (r.1, triggerId, some e)
  | none =>
    let ag1 := r.1
    let ids := (alGet ag1.eventTriggers event).getD []
    let ids1 := if ids.contains triggerId then ids else ids ++ [triggerId]
    ({ ag1 with eventTriggers := alSet ag1.eventTriggers event ids1 }, triggerId, none)

/-- `Agent.when` (lines 815–845) after overload resolution: a repeating
trigger with a generated id. -/
def Agent.when (ag : AgentState S) (check : S → COutcome)
    (conditions : Option (List (Condition S))) (actions : List (Nat × AAction S)) :
    AgentState S × String × Option JsError :=
  let g := Agent.generateTriggerId ag
  let t : Trigger S :=
    { id := g.2, check := CheckFn.stateCheck check, conditions := conditions,
      actions := actions, repeatFlag := some true }
  let r := Agent.addTrigger g.1 t
  (r.1, g.2, r.2)

/-- `Agent.once` (lines 876–906) after overload resolution: identical to
`Agent.when` but with `repeat := false`. -/
def Agent.once (ag : AgentState S) (check : S → COutcome)
    (conditions : Option (List (Condition S))) (actions : List (Nat × AAction S)) :
    AgentState S × String × Option JsError :=
  let g := Agent.generateTriggerId ag
  let t : Trigger S :=
    { id := g.2, check := CheckFn.stateCheck check, conditions := conditions,
      actions := actions, repeatFlag := some false }
  let r := Agent.addTrigger g.1 t
  (r.1, g.2, r.2)

/-- `Agent.removeEventTrigger` (lines 684–687): delegates to
`removeTrigger`, ignoring the event argument. -/
def Agent.removeEventTrigger (ag : AgentState S) (_event triggerId : String) :
    AgentState S × Option JsError :=
  Agent.removeTrigger ag triggerId

/-- `Agent.getEventTriggersForEvent` (lines 735–748): the triggers whose
ids are associated with the event and still present in the registry. -/
def Agent.getEventTriggersForEvent (ag : AgentState S) (event : String) :
    List (Trigger S) :=
  match alGet ag.eventTriggers event with
  | none => []
  | some triggerIds => triggerIds.filterMap (fun tid => alGet ag.triggers tid)

/-! ### `agent.ts` — trigger evaluation and the execution loop -/

/-- Interpretation of a stored action against the agent: `act f` reads
and writes the state contents in place (no `_stateChanged`); the others
run the corresponding agent method, a failing `removeTrigger` throwing
out of the action body. -/
def runAAction : AAction S → AgentState S → AgentState S × Option ThrownVal
  | AAction.act f, ag =>
    let r := f ag.stateVal
    ({ ag with stateVal := r.1 }, r.2)
  | AAction.setStateA f, ag => (Agent.setState ag (f ag.stateVal), none)
  | AAction.emitEventA name, ag => (Agent.emitEvent ag name, none)
  | AAction.removeTriggerA id, ag =>
    let r := Agent.removeTrigger ag id
    match r.2 with
    | some e => (r.1, some (ThrownVal.errorVal e))
    | none => (r.1, none)

/-- A trigger's stored action list, as the `ActionF` values handed to
`executeActions` (instantiated at the agent state as the world, since
actions both mutate the live state object and call captured agent
methods). -/
def toActionFs (actions : List (Nat × AAction S)) : List (ActionF (AgentState S)) :=
  actions.map (fun p => { aid := p.1, run := runAAction p.2 })

/-- What happened when one trigger was evaluated (derived trace datum
for stating properties): the check returned `false`; the check threw;
the conditions evaluated to `false`; or the action phase ran, with its
invocation trace. -/
inductive FireResult where
  | checkFailed : FireResult
  | checkThrew : FireResult
  | conditionsFailed : FireResult
  | fired (actionTrace : List Nat) : FireResult
deriving DecidableEq, Repr

/-- Step 1 of the per-trigger protocol: `await trigger.check(state)`.
A plain check reads the current state; an event check runs the ledger
closure (which ignores the state argument). -/
def runCheck (ag : AgentState S) (t : Trigger S) : AgentState S × COutcome :=
  match t.check with
  | CheckFn.stateCheck f => (ag, f ag.stateVal)
  | CheckFn.eventCheck event =>
    let r := runEventCheck ag event t.id
    (r.1, COutcome.ret r.2)

/-- `Agent._checkAndExecuteTrigger` (lines 494–547): run the check (a
throw is caught by the surrounding `catch`, normalized and sent to the
sink); on `true`, evaluate `conditions ?? []` over the same state; on
pass, sleep the configured `delay` (not modelled), run the actions
through `executeActions`, forward each collected error to the sink in
order, and finally, when `repeat === false`, remove the trigger — the
`has` guard making this a no-op when the trigger was already removed
from within its own actions. -/
def Agent.checkAndExecuteTrigger (ag : AgentState S) (t : Trigger S) :
    AgentState S × List AgEvent × FireResult :=
  let rc := runCheck ag t
  match rc.2 with
  | COutcome.threw tv =>
    (rc.1, [AgEvent.sinkError (normalizeThrown tv)], FireResult.checkThrew)
  | COutcome.ret false => (rc.1, [], FireResult.checkFailed)
  | COutcome.ret true =>
    let ag1 := rc.1
    let conditions := t.conditions.getD []
    let cr := evaluateConditions conditions ag1.stateVal
    if cr.2 = false then (ag1, [], FireResult.conditionsFailed)
    else
      let er := executeActions (toActionFs t.actions) ag1
      let ag2 := er.2.1
      let evs := er.2.2.map AgEvent.sinkError
      if t.repeatFlag = some false then
        if alHas ag2.triggers t.id then
          ((Agent.removeTrigger ag2 t.id).1, evs, FireResult.fired er.1)
        else (ag2, evs, FireResult.fired er.1)
      else (ag2, evs, FireResult.fired er.1)

/-- The trigger iteration of one tick (lines 449–455): walk the
point-in-time snapshot in order, stopping as soon as `_shouldRun` is
lowered; collect the sink events and a per-trigger trace. -/
def runTriggerPass : AgentState S → List (Trigger S) →
    AgentState S × List AgEvent × List (String × FireResult)
  | ag, [] => (ag, [], [])
  | ag, t :: rest =>
    if ag.shouldRun = false then (ag, [], [])
    else
      let r := Agent.checkAndExecuteTrigger ag t
      let rr := runTriggerPass r.1 rest
      (rr.1, r.2.1 ++ rr.2.1, (t.id, r.2.2) :: rr.2.2)

/-- One iteration of `Agent._runExecutionLoop` (lines 439–478): snapshot
the `_stateChanged` flag; when set, clear it and evaluate the trigger
snapshot; then, when the flag had been observed set, reset the
quiet-cycle counter to 0, and otherwise increment it and run
`_checkSettleResolvers`.  The inter-tick sleep and the defensive catch
(nothing in the model throws past the per-trigger catch) are not
modelled. -/
def runTick (ag : AgentState S) :
    AgentState S × List AgEvent × List (String × FireResult) :=
  let stateChangedThisCycle := ag.stateChanged
  let step :=
    if ag.stateChanged then
      let ag0 := { ag with stateChanged := false }
      runTriggerPass ag0 (Agent.getAllTriggers ag0)
    else (ag, [], [])
  let ag1 := step.1
  if stateChangedThisCycle then
    ({ ag1 with consecutiveQuietCycles := 0 }, step.2.1, step.2.2)
  else
    let ag2 := { ag1 with consecutiveQuietCycles := ag1.consecutiveQuietCycles + 1 }
    let cr := Agent.checkSettleResolvers ag2
    (cr.1, step.2.1 ++ cr.2, step.2.2)

/-! ### Association-list lemmas -/

theorem alGet_of_alHas_false (l : List (String × α)) (k : String)
    (h : alHas l k = false) : alGet l k = none := by
  induction l with
  | nil => rfl
  | cons p rest ih =>
    simp only [alHas, List.any_cons, Bool.or_eq_false_iff] at h
    simp only [alGet, List.find?_cons]
    rw [show (decide (p.1 = k)) = false from h.1]
    exact ih h.2

theorem alGet_map_set (l : List (String × α)) (k : String) (v : α)
    (h : alHas l k = true) :
    alGet (l.map (fun p => if p.1 = k then (k, v) else p)) k = some v := by
  induction l with
  | nil => simp [alHas] at h
  | cons p rest ih =>
    by_cases hp : p.1 = k
    · simp [alGet, List.find?_cons, hp]
    · simp only [alHas, List.any_cons, Bool.or_eq_true_iff, decide_eq_true_eq] at h
      rcases h with h | h
      · exact absurd h hp
      · simp only [List.map_cons, if_neg hp, alGet, List.find?_cons]
        rw [show (decide (p.1 = k)) = false by simpa using hp]
        exact ih h

theorem alGet_append_single (l : List (String × α)) (k : String) (v : α)
    (h : alHas l k = false) :
    alGet (l ++ [(k, v)]) k = some v := by
  induction l with
  | nil => simp [alGet]
  | cons p rest ih =>
    simp only [alHas, List.any_cons, Bool.or_eq_false_iff] at h
    simp only [List.cons_append, alGet, List.find?_cons]
    rw [show (decide (p.1 = k)) = false from h.1]
    exact ih h.2

theorem alGet_alSet_self (l : List (String × α)) (k : String) (v : α) :
    alGet (alSet l k v) k = some v := by
  unfold alSet
  by_cases h : alHas l k
  · rw [if_pos h]; exact alGet_map_set l k v h
  · rw [if_neg h]
    exact alGet_append_single l k v (Bool.not_eq_true _ ▸ h)

theorem alGet_map_set_ne (l : List (String × α)) (k k' : String) (v : α)
    (hne : k' ≠ k) :
    alGet (l.map (fun p => if p.1 = k then (k, v) else p)) k' = alGet l k' := by
  induction l with
  | nil => rfl
  | cons p rest ih =>
    by_cases hp : p.1 = k
    · simp only [List.map_cons, if_pos hp, alGet, List.find?_cons]
      rw [show (decide (k = k')) = false by simpa using fun hh => hne hh.symm]
      rw [show (decide (p.1 = k')) = false by
        simpa using fun hh => hne (hp ▸ hh).symm]
      exact ih
    · simp only [List.map_cons, if_neg hp, alGet, List.find?_cons]
      cases hd : decide (p.1 = k') with
      | true => rfl
      | false => exact ih

theorem alGet_append_single_ne (l : List (String × α)) (k k' : String) (v : α)
    (hne : k' ≠ k) :
    alGet (l ++ [(k, v)]) k' = alGet l k' := by
  induction l with
  | nil => simp [alGet, List.find?_cons, Ne.symm hne]
  | cons p rest ih =>
    simp only [List.cons_append, alGet, List.find?_cons]
    cases hd : decide (p.1 = k') with
    | true => rfl
    | false => exact ih

theorem alGet_alSet_ne (l : List (String × α)) (k k' : String) (v : α)
    (hne : k' ≠ k) : alGet (alSet l k v) k' = alGet l k' := by
  unfold alSet
  by_cases h : alHas l k
  · rw [if_pos h]; exact alGet_map_set_ne l k k' v hne
  · rw [if_neg h]; exact alGet_append_single_ne l k k' v hne

theorem alGet_alDelete_self (l : List (String × α)) (k : String) :
    alGet (alDelete l k) k = none := by
  induction l with
  | nil => rfl
  | cons p rest ih =>
    by_cases hp : p.1 = k
    · rw [show alDelete (p :: rest) k = alDelete rest k by
        simp [alDelete, List.filter_cons, hp]]
      exact ih
    · rw [show alDelete (p :: rest) k = p :: alDelete rest k by
        simp [alDelete, List.filter_cons, hp]]
      simp only [alGet, List.find?_cons]
      rw [show (decide (p.1 = k)) = false by simpa using hp]
      exact ih

/-! ### Claims -/

def c1ThrowingSub : Subscriber Nat :=
  { sid := 0, run := fun _ => some (ThrownVal.errorVal { message := "Subscriber error" }) }

def c1NormalSub : Subscriber Nat :=
  { sid := 1, run := fun _ => none }

def c1Container : StateC Nat :=
  { value := 0, subscribers := [c1ThrowingSub, c1NormalSub] }

/-- C1.  The claim states that `set(v)` invokes every subscriber with the
new value in subscription order, catching each subscriber exception
individually so that remaining subscribers still run and nothing
propagates to the caller of `set`.  The code's `_notify`
(`packages/core/src/state.ts` lines 53–55) has no `try`/`catch`, so on a
container with a throwing first subscriber and a normal second one, the
exception escapes `set` and the second subscriber is never invoked: the
invocation trace is `[0]`, not `[0, 1]`, and the thrown value reaches the
caller.  (The repository's own test suite for `State` asserts the
opposite: `set` must not throw and both callbacks must run.) -/
theorem c1_set_propagates_subscriber_exception :
    (StateC.set c1Container 5).2.1 = [0] ∧
    (StateC.set c1Container 5).2.2 =
      some (ThrownVal.errorVal { message := "Subscriber error" }) ∧
    (StateC.set c1Container 5).1.value = 5 :=
  ⟨rfl, rfl, rfl⟩

theorem length_filterMap_normalize (l : List (Option ThrownVal)) :
    (l.filterMap (fun o => o.map normalizeThrown)).length =
      (l.filter (fun o => o.isSome)).length := by
  induction l with
  | nil => rfl
  | cons o rest ih => cases o <;> simp [ih]

/-- C4.  `executeActions` invokes every action exactly once in list
order regardless of earlier actions throwing (the invocation trace is
exactly the id list); the errors collected are precisely the thrown
outcomes, in order, each normalized (non-`Error` values wrapped with
their stringified form as message); and the error-list length equals the
number of actions that threw. -/
theorem c4_executeActions_runs_all_collects_all {W : Type}
    (actions : List (ActionF W)) (w : W) :
    (executeActions actions w).1 = actions.map (fun a => a.aid) ∧
    (executeActions actions w).2.2 =
      (thrownOutcomes actions w).filterMap (fun o => o.map normalizeThrown) ∧
    (executeActions actions w).2.2.length =
      ((thrownOutcomes actions w).filter (fun o => o.isSome)).length := by
  induction actions generalizing w with
  | nil => exact ⟨rfl, rfl, rfl⟩
  | cons a rest ih =>
    obtain ⟨ih1, ih2, ih3⟩ := ih (a.run w).1
    cases hr : (a.run w).2 with
    | none =>
      refine ⟨?_, ?_, ?_⟩ <;>
        simp [executeActions, thrownOutcomes, hr, ih1, ih2, ih3,
          length_filterMap_normalize]
    | some t =>
      refine ⟨?_, ?_, ?_⟩ <;>
        simp [executeActions, thrownOutcomes, hr, ih1, ih2, ih3,
          length_filterMap_normalize]

theorem condFails_false_iff (c : Condition S) (s : S) :
    condFails c s = false ↔ c.run s = COutcome.ret true := by
  unfold condFails
  cases h : c.run s with
  | ret b => cases b <;> simp
  | threw t => simp

/-- C5.  The condition evaluator: the empty list passes; an all-passing
list evaluates every condition in order and returns `true`; the first
condition that returns `false` or throws stops evaluation with `false`,
the conditions after it never being invoked; a throwing condition
behaves exactly like one returning `false` in the same position (the
error is swallowed, with no error channel in the result); and inside the
per-trigger protocol a failing condition list produces no error-sink
events at all. -/
theorem c5_evaluateConditions_contract {S : Type} :
    (∀ (s : S), evaluateConditions ([] : List (Condition S)) s = ([], true)) ∧
    (∀ (conds : List (Condition S)) (s : S),
      (∀ c ∈ conds, condFails c s = false) →
      evaluateConditions conds s = (conds.map (fun c => c.cid), true)) ∧
    (∀ (pre : List (Condition S)) (c : Condition S) (rest : List (Condition S)) (s : S),
      (∀ p ∈ pre, condFails p s = false) → condFails c s = true →
      evaluateConditions (pre ++ c :: rest) s =
        (pre.map (fun c => c.cid) ++ [c.cid], false)) ∧
    (∀ (pre rest : List (Condition S)) (c : Condition S) (s : S) (t : ThrownVal),
      c.run s = COutcome.threw t →
      evaluateConditions (pre ++ c :: rest) s =
        evaluateConditions
          (pre ++ { cid := c.cid, run := fun _ => COutcome.ret false } :: rest) s) ∧
    (∀ (ag : AgentState S) (t : Trigger S),
      (runCheck ag t).2 = COutcome.ret true →
      (evaluateConditions (t.conditions.getD []) (runCheck ag t).1.stateVal).2 = false →
      (Agent.checkAndExecuteTrigger ag t).2.1 = []) := by
  refine ⟨fun s => rfl, ?_, ?_, ?_, ?_⟩
  · intro conds s h
    induction conds with
    | nil => rfl
    | cons c rest ih =>
      have hc : c.run s = COutcome.ret true :=
        (condFails_false_iff c s).1 (h c (List.mem_cons_self c rest))
      have := ih (fun p hp => h p (List.mem_cons_of_mem c hp))
      simp [evaluateConditions, hc, this]
  · intro pre c rest s hpre hc
    induction pre with
    | nil =>
      unfold condFails at hc
      cases hcr : c.run s with
      | ret b =>
        cases b with
        | true => rw [hcr] at hc; simp at hc
        | false => simp [evaluateConditions, hcr]
      | threw t => simp [evaluateConditions, hcr]
    | cons p pre' ih =>
      have hp : p.run s = COutcome.ret true :=
        (condFails_false_iff p s).1 (hpre p (List.mem_cons_self p pre'))
      have := ih (fun q hq => hpre q (List.mem_cons_of_mem p hq))
      simp [evaluateConditions, hp, this]
  · intro pre rest c s t hc
    induction pre with
    | nil => simp [evaluateConditions, hc]
    | cons p pre' ih =>
      cases hp : p.run s with
      | ret b => cases b <;> simp [evaluateConditions, hp, ih]
      | threw u => simp [evaluateConditions, hp]
  · intro ag t h1 h2
    simp [Agent.checkAndExecuteTrigger, h1, h2]

def w5Pass : Condition Nat := { cid := 0, run := fun _ => COutcome.ret true }

def w5Throwing : Condition Nat :=
  { cid := 1, run := fun _ => COutcome.threw (ThrownVal.otherVal "boom") }

def w5Never : Condition Nat := { cid := 2, run := fun _ => COutcome.ret true }

/-- Witness for C5: a passing condition, then a throwing one, then one
that must not run — evaluation stops at the throwing condition with
`false` and the trace `[0, 1]`. -/
theorem c5_evaluateConditions_contract_witness :
    condFails w5Throwing 0 = true ∧
    evaluateConditions [w5Pass, w5Throwing, w5Never] 0 = ([0, 1], false) := by
  refine ⟨by decide, ?_⟩
  have := c5_evaluateConditions_contract.2.2.1 [w5Pass] w5Throwing [w5Never] 0
    (by decide) (by decide)
  simpa using this

theorem runEventCheck_new (ag : AgentState S) (event tid : String)
    (hnew : (alGet ((alGet ag.eventLastSeenByTrigger event).getD []) tid).getD 0
            < (alGet ag.eventEmissionCount event).getD 0) :
    runEventCheck ag event tid =
      ({ ag with
          eventLastSeenByTrigger :=
            alSet (alSet ag.eventLastSeenByTrigger event
                ((alGet ag.eventLastSeenByTrigger event).getD []))
              event
              (alSet ((alGet ag.eventLastSeenByTrigger event).getD []) tid
                ((alGet ag.eventEmissionCount event).getD 0)) },
       true) := by
  simp only [runEventCheck]
  rw [if_pos hnew]

theorem runEventCheck_stale (ag : AgentState S) (event tid : String)
    (hstale : ¬ ((alGet ((alGet ag.eventLastSeenByTrigger event).getD []) tid).getD 0
                 < (alGet ag.eventEmissionCount event).getD 0)) :
    (runEventCheck ag event tid).2 = false := by
  simp only [runEventCheck]
  rw [if_neg hstale]

/-- C10.  For an `on()`-built trigger, a successful check already
advances the per-(event, trigger-id) watermark to the current emission
counter — before conditions are evaluated (the advance is part of
`runCheck` itself) — and leaves the counter untouched; hence when the
conditions then fail, the protocol stops with no actions and no sink
events, and re-running the check against the unchanged counter returns
`false`: the emission is permanently consumed for this trigger until a
new emission raises the counter. -/
theorem c10_check_advances_watermark_before_conditions {S : Type}
    (ag : AgentState S) (event : String) (t : Trigger S)
    (hcheck : t.check = CheckFn.eventCheck event)
    (hnew : (alGet ((alGet ag.eventLastSeenByTrigger event).getD []) t.id).getD 0
            < (alGet ag.eventEmissionCount event).getD 0) :
    (runCheck ag t).2 = COutcome.ret true ∧
    alGet ((alGet (runCheck ag t).1.eventLastSeenByTrigger event).getD []) t.id
      = some ((alGet ag.eventEmissionCount event).getD 0) ∧
    (runCheck ag t).1.eventEmissionCount = ag.eventEmissionCount ∧
    ((evaluateConditions (t.conditions.getD []) (runCheck ag t).1.stateVal).2 = false →
      Agent.checkAndExecuteTrigger ag t =
        ((runCheck ag t).1, [], FireResult.conditionsFailed) ∧
      (runEventCheck (runCheck ag t).1 event t.id).2 = false) := by
  have hrun : runCheck ag t =
      ((runEventCheck ag event t.id).1, COutcome.ret (runEventCheck ag event t.id).2) := by
    simp [runCheck, hcheck]
  have hev := runEventCheck_new ag event t.id hnew
  have h2 : (runCheck ag t).2 = COutcome.ret true := by
    rw [hrun, hev]
  have hmark : alGet ((alGet (runCheck ag t).1.eventLastSeenByTrigger event).getD []) t.id
      = some ((alGet ag.eventEmissionCount event).getD 0) := by
    rw [hrun, hev]
    simp only [alGet_alSet_self, Option.getD_some]
  have hcount : (runCheck ag t).1.eventEmissionCount = ag.eventEmissionCount := by
    rw [hrun, hev]
  refine ⟨h2, hmark, hcount, fun hcond => ⟨?_, ?_⟩⟩
  · simp [Agent.checkAndExecuteTrigger, h2, hcond]
  · apply runEventCheck_stale
    rw [hmark, hcount]
    simp

def w10Trigger : Trigger Nat :=
  { id := "t10", check := CheckFn.eventCheck "save",
    conditions := some [{ cid := 0, run := fun _ => COutcome.ret false }],
    actions := [] }

def w10Agent : AgentState Nat :=
  Agent.emitEvent (Agent.start (mkAgent 0 [w10Trigger]).1).1 "save"

/-- Witness for C10: an agent with one emission of `save` and an
event trigger whose single condition returns `false` — the protocol
stops at the conditions, yet a re-run of the check finds the emission
consumed. -/
theorem c10_check_advances_watermark_before_conditions_witness :
    ((alGet ((alGet w10Agent.eventLastSeenByTrigger "save").getD []) "t10").getD 0
      < (alGet w10Agent.eventEmissionCount "save").getD 0) ∧
    Agent.checkAndExecuteTrigger w10Agent w10Trigger =
      ((runCheck w10Agent w10Trigger).1, [], FireResult.conditionsFailed) ∧
    (runEventCheck (runCheck w10Agent w10Trigger).1 "save" "t10").2 = false := by
  have h := c10_check_advances_watermark_before_conditions w10Agent "save" w10Trigger
    rfl (by decide)
  exact ⟨by decide, (h.2.2.2 (by decide)).1, (h.2.2.2 (by decide)).2⟩

def c2AgentEmitted : AgentState Nat :=
  Agent.emitEvent (Agent.start (mkAgent 0 []).1).1 "save"

def c2Registered : AgentState Nat × String × Option JsError :=
  Agent.on c2AgentEmitted "save" none [] none

/-- C2 counterexample: a running agent emits `save` once; afterwards
(and before any further emission) a trigger is registered with
`on("save", ...)`.  The claim says its check returns `false` until a
strictly later emission.  In fact its first check evaluation returns
`true` — the watermark defaults to 0, not to the creation-time counter
value 1 — and the very next tick fires the trigger for the past
emission. -/
theorem c2_counterexample_late_on_fires_for_past_emission :
    (alGet c2Registered.1.eventEmissionCount "save").getD 0 = 1 ∧
    c2Registered.2.1 = "__trigger_1" ∧
    (runEventCheck c2Registered.1 "save" "__trigger_1").2 = true ∧
    (runTick c2Registered.1).2.2 = [("__trigger_1", FireResult.fired [])] := by
  refine ⟨by decide, by decide, by decide, by decide⟩

theorem on_preserves_ledger {S : Type} (ag : AgentState S) (event : String)
    (conds : Option (List (Condition S))) (acts : List (Nat × AAction S))
    (rep : Option Bool)
    (hok : (Agent.on ag event conds acts rep).2.2 = none) :
    (Agent.on ag event conds acts rep).1.eventEmissionCount = ag.eventEmissionCount ∧
    (Agent.on ag event conds acts rep).1.eventLastSeenByTrigger = ag.eventLastSeenByTrigger := by
  by_cases h : alHas ag.triggers ("__trigger_" ++ toString (ag.triggerIdCounter + 1))
  · exfalso
    revert hok
    simp [Agent.on, Agent.generateTriggerId, Agent.addTrigger, h]
  · constructor <;> simp [Agent.on, Agent.generateTriggerId, Agent.addTrigger, h]

/-- C2 (amended).  A trigger registered via `on(e, ...)` after `n ≥ 1`
emissions of `e` DOES fire for those past emissions: `on()` does not
snapshot the ledger counter, and the check closure reads a missing
watermark entry as 0 (`?? 0`), so the first check evaluation after
registration returns `true` (the counter exceeds the zero watermark) and
advances the watermark to the current counter. -/
theorem c2_amended_initial_watermark_is_zero {S : Type}
    (ag : AgentState S) (event : String)
    (conds : Option (List (Condition S))) (acts : List (Nat × AAction S))
    (rep : Option Bool)
    (hn : 1 ≤ (alGet ag.eventEmissionCount event).getD 0)
    (hfresh : alGet ((alGet ag.eventLastSeenByTrigger event).getD [])
        (Agent.on ag event conds acts rep).2.1 = none)
    (hok : (Agent.on ag event conds acts rep).2.2 = none) :
    (runEventCheck (Agent.on ag event conds acts rep).1 event
        (Agent.on ag event conds acts rep).2.1).2 = true ∧
    alGet ((alGet (runEventCheck (Agent.on ag event conds acts rep).1 event
          (Agent.on ag event conds acts rep).2.1).1.eventLastSeenByTrigger event).getD [])
        (Agent.on ag event conds acts rep).2.1
      = some ((alGet ag.eventEmissionCount event).getD 0) := by
  obtain ⟨hcnt, hseen⟩ := on_preserves_ledger ag event conds acts rep hok
  have hnew : (alGet ((alGet (Agent.on ag event conds acts rep).1.eventLastSeenByTrigger
        event).getD []) (Agent.on ag event conds acts rep).2.1).getD 0
      < (alGet (Agent.on ag event conds acts rep).1.eventEmissionCount event).getD 0 := by
    rw [hcnt, hseen, hfresh]
    simpa using hn
  have hev := runEventCheck_new (Agent.on ag event conds acts rep).1 event
    (Agent.on ag event conds acts rep).2.1 hnew
  constructor
  · rw [hev]
  · rw [hev]
    simp only [alGet_alSet_self, Option.getD_some, hcnt]

/-- Witness for C2's amended claim, at the concrete late registration of
the counterexample. -/
theorem c2_amended_initial_watermark_is_zero_witness :
    1 ≤ (alGet c2AgentEmitted.eventEmissionCount "save").getD 0 ∧
    (runEventCheck c2Registered.1 "save" c2Registered.2.1).2 = true :=
  ⟨by decide,
   (c2_amended_initial_watermark_is_zero c2AgentEmitted "save" none [] none
      (by decide) (by decide) (by decide)).1⟩

def c3Idle : AgentState Nat :=
  (Agent.on (mkAgent 0 []).1 "save" none [] none).1

def c3Started : AgentState Nat := (Agent.start c3Idle).1

/-- C3 counterexample: an idle agent registers `on("save", ...)`; the
association query then lists the trigger.  A successful `start()` —
contrary to the claim that the event-name→trigger-id associations are
unchanged — clears `_eventTriggers`, so `getEventTriggersForEvent`
returns the empty list afterwards even though the trigger itself is
still registered. -/
theorem c3_counterexample_start_clears_event_associations :
    (Agent.getEventTriggersForEvent c3Idle "save").length = 1 ∧
    (Agent.start c3Idle).2.2 = none ∧
    (Agent.getTrigger c3Started "__trigger_1").isSome = true ∧
    Agent.getEventTriggersForEvent c3Started "save" = [] :=
  ⟨rfl, rfl, rfl, rfl⟩

/-- C3 (amended).  A successful `start()` sets the status to Running,
raises the run and evaluate-on-first-tick flags, resets the
consecutive-idle-tick counter to 0, and clears the emission counters,
the per-trigger watermarks AND the event-name→trigger-id associations;
everything else — the trigger registry itself, the state value, the
pending settle requests, the id counter — is unchanged.  Hence
`getTrigger(id)` still returns a previously registered trigger, but
`getEventTriggersForEvent(e)` returns the empty list for every event. -/
theorem c3_amended_start_frame {S : Type} (ag : AgentState S)
    (hnr : ag.status ≠ AgStatus.running) :
    Agent.start ag =
      ({ ag with
          status := AgStatus.running, shouldRun := true, stateChanged := true,
          consecutiveQuietCycles := 0, eventEmissionCount := [],
          eventLastSeenByTrigger := [], eventTriggers := [] }, [], none) ∧
    (Agent.start ag).1.triggers = ag.triggers ∧
    (∀ id, Agent.getTrigger (Agent.start ag).1 id = Agent.getTrigger ag id) ∧
    (∀ e, Agent.getEventTriggersForEvent (Agent.start ag).1 e = []) ∧
    (Agent.start ag).1.stateVal = ag.stateVal ∧
    (Agent.start ag).1.settleResolvers = ag.settleResolvers ∧
    (Agent.start ag).1.triggerIdCounter = ag.triggerIdCounter := by
  have hstart : Agent.start ag =
      ({ ag with
          status := AgStatus.running, shouldRun := true, stateChanged := true,
          consecutiveQuietCycles := 0, eventEmissionCount := [],
          eventLastSeenByTrigger := [], eventTriggers := [] }, [], none) := by
    simp [Agent.start, hnr]
  refine ⟨hstart, by rw [hstart], fun id => by rw [hstart]; rfl, fun e => ?_,
    by rw [hstart], by rw [hstart], by rw [hstart]⟩
  rw [hstart]
  rfl

/-- Witness for C3's amended claim at the counterexample's concrete
agent. -/
theorem c3_amended_start_frame_witness :
    c3Idle.status ≠ AgStatus.running ∧
    (Agent.start c3Idle).1.triggers = c3Idle.triggers ∧
    Agent.getEventTriggersForEvent (Agent.start c3Idle).1 "save" = [] := by
  have h := c3_amended_start_frame c3Idle (by decide)
  exact ⟨by decide, h.2.1, h.2.2.2.1 "save"⟩

/-- C6.  `addTrigger` with an already-registered id fails with the
`DUPLICATE_TRIGGER` error and leaves the whole agent — in particular the
registry, with the existing trigger — unchanged; the constructor's
initial trigger list goes through exactly the same path (`mkAgent` IS
`addTriggersFromConfig` from the fresh instance), so a duplicate there
fails the same way, aborting the remaining registrations. -/
theorem c6_duplicate_trigger_id_fails {S : Type} :
    (∀ (ag : AgentState S) (t : Trigger S), alHas ag.triggers t.id = true →
      Agent.addTrigger ag t =
        (ag, some { message := "Trigger with id " ++ t.id ++ " already exists",
                    code := "DUPLICATE_TRIGGER", context := ErrCtx.triggerId t.id })) ∧
    (∀ (ag : AgentState S) (t : Trigger S) (rest : List (Trigger S)),
      alHas ag.triggers t.id = true →
      addTriggersFromConfig ag (t :: rest) =
        (ag, some { message := "Trigger with id " ++ t.id ++ " already exists",
                    code := "DUPLICATE_TRIGGER", context := ErrCtx.triggerId t.id })) ∧
    (∀ (initialState : S) (ts : List (Trigger S)),
      mkAgent initialState ts =
        addTriggersFromConfig (mkAgent initialState []).1 ts) := by
  have h1 : ∀ (ag : AgentState S) (t : Trigger S), alHas ag.triggers t.id = true →
      Agent.addTrigger ag t =
        (ag, some { message := "Trigger with id " ++ t.id ++ " already exists",
                    code := "DUPLICATE_TRIGGER", context := ErrCtx.triggerId t.id }) := by
    intro ag t h
    simp [Agent.addTrigger, h]
  refine ⟨h1, fun ag t rest h => ?_, fun initialState ts => rfl⟩
  simp [addTriggersFromConfig, h1 ag t h]

def w6First : Trigger Nat :=
  { id := "dup", check := CheckFn.stateCheck (fun _ => COutcome.ret false), actions := [] }

def w6Second : Trigger Nat :=
  { id := "dup", check := CheckFn.stateCheck (fun _ => COutcome.ret true),
    actions := [(0, AAction.emitEventA "x")] }

def w6Agent : AgentState Nat := (mkAgent 0 [w6First]).1

/-- Witness for C6: adding a second trigger with the id `dup` to an
agent already holding one fails with `DUPLICATE_TRIGGER` and returns the
agent unchanged. -/
theorem c6_duplicate_trigger_id_fails_witness :
    alHas w6Agent.triggers "dup" = true ∧
    Agent.addTrigger w6Agent w6Second =
      (w6Agent, some { message := "Trigger with id " ++ "dup" ++ " already exists",
                       code := "DUPLICATE_TRIGGER", context := ErrCtx.triggerId "dup" }) :=
  ⟨rfl, c6_duplicate_trigger_id_fails.1 w6Agent w6Second rfl⟩

theorem runTriggerPass_trace_ids {S : Type} (ts : List (Trigger S)) :
    ∀ (ag : AgentState S) x, x ∈ (runTriggerPass ag ts).2.2 →
      x.1 ∈ ts.map Trigger.id := by
  induction ts with
  | nil => intro ag x hx; simp [runTriggerPass] at hx
  | cons t rest ih =>
    intro ag x hx
    by_cases hrun : ag.shouldRun = false
    · simp [runTriggerPass, hrun] at hx
    · simp only [runTriggerPass, if_neg hrun, List.mem_cons] at hx
      rcases hx with hx | hx
      · simp [hx]
      · exact List.mem_cons_of_mem _ (ih _ x hx)

theorem alGet_none_keys {S : Type} (l : List (String × S)) (k : String)
    (h : alGet l k = none) : ∀ p ∈ l, p.1 ≠ k := by
  intro p hp
  simp only [alGet, Option.map_eq_none', List.find?_eq_none] at h
  simpa using h p hp

/-- C7.  A trigger with `repeat === false` whose action phase completed
(the evaluation result is `fired`, whether or not errors were collected)
is absent from the registry afterwards — the `has` guard making the
final removal a no-op when the trigger already removed itself from
within its own actions; and on any agent whose registry no longer holds
the id (with registry keys matching trigger ids, as every registration
path guarantees), a subsequent tick evaluates no trigger under that id,
however the state changed in between. -/
theorem c7_fire_once_self_deregisters {S : Type} :
    (∀ (ag : AgentState S) (t : Trigger S) (tr : List Nat),
      t.repeatFlag = some false →
      (Agent.checkAndExecuteTrigger ag t).2.2 = FireResult.fired tr →
      Agent.getTrigger (Agent.checkAndExecuteTrigger ag t).1 t.id = none) ∧
    (∀ (ag : AgentState S) (tid : String),
      (∀ p ∈ ag.triggers, p.1 = p.2.id) →
      Agent.getTrigger ag tid = none →
      ∀ fr, (tid, fr) ∉ (runTick ag).2.2) := by
  constructor
  · intro ag t tr hrep hfired
    cases hc : (runCheck ag t).2 with
    | threw tv =>
      rw [show (Agent.checkAndExecuteTrigger ag t).2.2 = FireResult.checkThrew by
        simp [Agent.checkAndExecuteTrigger, hc]] at hfired
      exact absurd hfired (by simp)
    | ret b =>
      cases b with
      | false =>
        rw [show (Agent.checkAndExecuteTrigger ag t).2.2 = FireResult.checkFailed by
          simp [Agent.checkAndExecuteTrigger, hc]] at hfired
        exact absurd hfired (by simp)
      | true =>
        by_cases hcond :
            (evaluateConditions (t.conditions.getD []) (runCheck ag t).1.stateVal).2 = false
        · rw [show (Agent.checkAndExecuteTrigger ag t).2.2 = FireResult.conditionsFailed by
            simp [Agent.checkAndExecuteTrigger, hc, hcond]] at hfired
          exact absurd hfired (by simp)
        · by_cases hhas :
              alHas (executeActions (toActionFs t.actions) (runCheck ag t).1).2.1.triggers
                t.id = true
          · rw [show (Agent.checkAndExecuteTrigger ag t).1 =
                (Agent.removeTrigger
                  (executeActions (toActionFs t.actions) (runCheck ag t).1).2.1 t.id).1 by
              simp [Agent.checkAndExecuteTrigger, hc, hcond, hrep, hhas]]
            simp [Agent.removeTrigger, hhas, Agent.getTrigger, alGet_alDelete_self]
          · rw [show (Agent.checkAndExecuteTrigger ag t).1 =
                (executeActions (toActionFs t.actions) (runCheck ag t).1).2.1 by
              simp [Agent.checkAndExecuteTrigger, hc, hcond, hrep, hhas]]
            exact alGet_of_alHas_false _ _ (by simpa using hhas)
  · intro ag tid hwf habs fr hmem
    have hkeys := alGet_none_keys ag.triggers tid habs
    by_cases hch : ag.stateChanged
    · have hmem2 : (tid, fr) ∈
          (runTriggerPass { ag with stateChanged := false }
            (Agent.getAllTriggers { ag with stateChanged := false })).2.2 := by
        revert hmem
        simp [runTick, hch]
      have hid := runTriggerPass_trace_ids _ _ _ hmem2
      simp only [Agent.getAllTriggers, List.map_map, List.mem_map] at hid
      obtain ⟨p, hp, hpid⟩ := hid
      exact hkeys p hp (by rw [hwf p hp]; exact hpid)
    · revert hmem
      simp [runTick, hch]

def w7Once : Trigger Nat :=
  { id := "t7", check := CheckFn.stateCheck (fun _ => COutcome.ret true),
    actions := [], repeatFlag := some false }

def w7Agent : AgentState Nat := (Agent.start (mkAgent 0 [w7Once]).1).1

/-- Witness for C7: a fire-once trigger whose check always passes is
absent from the registry after one evaluation, and the next tick — after
a fresh state change — evaluates no trigger under its id. -/
theorem c7_fire_once_self_deregisters_witness :
    w7Once.repeatFlag = some false ∧
    (Agent.checkAndExecuteTrigger w7Agent w7Once).2.2 = FireResult.fired [] ∧
    Agent.getTrigger (Agent.checkAndExecuteTrigger w7Agent w7Once).1 "t7" = none ∧
    ("t7", FireResult.fired []) ∉
      (runTick (Agent.setState (Agent.checkAndExecuteTrigger w7Agent w7Once).1 5)).2.2 := by
  refine ⟨rfl, by decide, ?_, ?_⟩
  · exact c7_fire_once_self_deregisters.1 w7Agent w7Once [] rfl (by decide)
  · exact c7_fire_once_self_deregisters.2
      (Agent.setState (Agent.checkAndExecuteTrigger w7Agent w7Once).1 5) "t7"
      (by decide) rfl (FireResult.fired [])

/-- C8.  `settle` throws synchronously — no promise is constructed —
with `AGENT_NOT_RUNNING` when the agent is not running and with
`INVALID_ARGUMENT` when `quietCycles ≤ 0`; it resolves immediately,
registering nothing, when the consecutive-idle count already meets the
threshold; a pending request reaching its deadline is rejected with a
`SETTLE_TIMEOUT` error carrying the configured timeout, the requested
threshold and the idle count observed at that moment, and is removed
from the pending list; and `stop()` on a running agent empties the
pending list, cancelling every request's timer and rejecting it with the
`AGENT_STOPPED` error. -/
theorem c8_settle_lifecycle_errors {S : Type} :
    (∀ (ag : AgentState S) (qc tm : Int) (rid : Nat),
      ag.status ≠ AgStatus.running →
      Agent.settle ag qc tm rid =
        (ag, SettleOutcome.threw
          { message := "Agent must be running to settle", code := "AGENT_NOT_RUNNING",
            context := ErrCtx.statusCtx (statusName ag.status) })) ∧
    (∀ (ag : AgentState S) (qc tm : Int) (rid : Nat),
      ag.status = AgStatus.running → qc ≤ 0 →
      Agent.settle ag qc tm rid =
        (ag, SettleOutcome.threw
          { message := "quietCycles must be a positive integer",
            code := "INVALID_ARGUMENT", context := ErrCtx.quietCyclesCtx qc })) ∧
    (∀ (ag : AgentState S) (qc tm : Int) (rid : Nat),
      ag.status = AgStatus.running → 0 < qc →
      qc ≤ (ag.consecutiveQuietCycles : Int) →
      Agent.settle ag qc tm rid = (ag, SettleOutcome.resolvedImmediately)) ∧
    (∀ (ag : AgentState S) (r : SettleResolver),
      settleTimeoutFire ag r =
        ({ ag with
            settleResolvers := ag.settleResolvers.filter (fun x => x.rid ≠ r.rid) },
         AgEvent.settleRejected r.rid
           { message := "settle() timed out waiting for quiet cycles",
             code := "SETTLE_TIMEOUT",
             context := ErrCtx.settleTimeoutCtx r.timeoutMs r.quietCycles
               (ag.consecutiveQuietCycles : Int) })) ∧
    (∀ (ag : AgentState S), ag.status = AgStatus.running →
      (Agent.stop ag).1.settleResolvers = [] ∧
      (Agent.stop ag).2.2 = none ∧
      (∀ r ∈ ag.settleResolvers,
        AgEvent.timerCancelled r.rid ∈ (Agent.stop ag).2.1 ∧
        AgEvent.settleRejected r.rid
          { message := "Agent stopped while waiting to settle", code := "AGENT_STOPPED",
            context := ErrCtx.pendingSettlesCtx ag.settleResolvers.length }
          ∈ (Agent.stop ag).2.1)) := by
  refine ⟨?_, ?_, ?_, fun ag r => rfl, ?_⟩
  · intro ag qc tm rid h
    simp [Agent.settle, Agent.isRunning, h]
  · intro ag qc tm rid hrun hq
    simp [Agent.settle, Agent.isRunning, hrun, hq]
  · intro ag qc tm rid hrun hpos hidle
    simp only [Agent.settle, Agent.isRunning, hrun]
    rw [if_neg (by simp), if_neg (by omega), if_pos (by omega)]
  · intro ag hrun
    have hne : ¬ (ag.status ≠ AgStatus.running) := by simp [hrun]
    refine ⟨?_, ?_, fun r hr => ⟨?_, ?_⟩⟩
    · simp [Agent.stop, hne]
    · simp [Agent.stop, hne]
    · simp only [Agent.stop, if_neg hne]
      exact List.mem_flatMap.mpr ⟨r, hr, by simp⟩
    · simp only [Agent.stop, if_neg hne]
      exact List.mem_flatMap.mpr ⟨r, hr, by simp⟩

def w8Stopped : AgentState Nat := (mkAgent 0 []).1

def w8Pending : AgentState Nat :=
  (Agent.settle (Agent.start (mkAgent 0 []).1).1 2 50 1).1

/-- Witness for C8: `settle` on an idle agent throws `AGENT_NOT_RUNNING`
synchronously, and `stop()` on a running agent with one pending request
cancels its timer and rejects it with `AGENT_STOPPED`. -/
theorem c8_settle_lifecycle_errors_witness :
    w8Stopped.status ≠ AgStatus.running ∧
    Agent.settle w8Stopped 2 100 0 =
      (w8Stopped, SettleOutcome.threw
        { message := "Agent must be running to settle", code := "AGENT_NOT_RUNNING",
          context := ErrCtx.statusCtx "idle" }) ∧
    w8Pending.status = AgStatus.running ∧
    (Agent.stop w8Pending).1.settleResolvers = [] ∧
    AgEvent.timerCancelled 1 ∈ (Agent.stop w8Pending).2.1 ∧
    AgEvent.settleRejected 1
      { message := "Agent stopped while waiting to settle", code := "AGENT_STOPPED",
        context := ErrCtx.pendingSettlesCtx 1 } ∈ (Agent.stop w8Pending).2.1 := by
  have h5 := c8_settle_lifecycle_errors.2.2.2.2 w8Pending (by decide)
  have hmem := h5.2.2 { rid := 1, quietCycles := 2, timeoutMs := 50 } (by decide)
  exact ⟨by decide, c8_settle_lifecycle_errors.1 w8Stopped 2 100 0 (by decide),
    by decide, h5.1, hmem.1, hmem.2⟩

theorem runTick_not_changed {S : Type} (ag : AgentState S)
    (hch : ag.stateChanged = false) :
    runTick ag =
      ((Agent.checkSettleResolvers
          { ag with consecutiveQuietCycles := ag.consecutiveQuietCycles + 1 }).1,
       (Agent.checkSettleResolvers
          { ag with consecutiveQuietCycles := ag.consecutiveQuietCycles + 1 }).2,
       []) := by
  simp [runTick, hch]

/-- C9.  Tick bookkeeping: when the change flag was observed set at the
start of the tick the consecutive-idle counter ends the tick at 0 —
whatever the registry held and whatever the triggers did; otherwise the
counter is incremented, exactly the pending settle requests whose
threshold exceeds the new count stay pending, every request whose
threshold the new count meets is resolved on that very tick, and
consequently a request whose threshold is met now resolves strictly
before one whose threshold is still above the new count. -/
theorem c9_idle_counter_and_settle_order {S : Type} :
    (∀ (ag : AgentState S), ag.stateChanged = true →
      (runTick ag).1.consecutiveQuietCycles = 0) ∧
    (∀ (ag : AgentState S), ag.stateChanged = false →
      (runTick ag).1.consecutiveQuietCycles = ag.consecutiveQuietCycles + 1 ∧
      (runTick ag).1.settleResolvers = ag.settleResolvers.filter
        (fun r => ¬ (r.quietCycles ≤ (ag.consecutiveQuietCycles : Int) + 1)) ∧
      (∀ r ∈ ag.settleResolvers,
        r.quietCycles ≤ (ag.consecutiveQuietCycles : Int) + 1 →
        AgEvent.settleResolved r.rid ∈ (runTick ag).2.1)) ∧
    (∀ (ag : AgentState S) (r1 r3 : SettleResolver), ag.stateChanged = false →
      r1 ∈ ag.settleResolvers → r3 ∈ ag.settleResolvers →
      r1.quietCycles = (ag.consecutiveQuietCycles : Int) + 1 →
      (ag.consecutiveQuietCycles : Int) + 1 < r3.quietCycles →
      AgEvent.settleResolved r1.rid ∈ (runTick ag).2.1 ∧
      r3 ∈ (runTick ag).1.settleResolvers) := by
  have hb : ∀ (ag : AgentState S), ag.stateChanged = false →
      (runTick ag).1.consecutiveQuietCycles = ag.consecutiveQuietCycles + 1 ∧
      (runTick ag).1.settleResolvers = ag.settleResolvers.filter
        (fun r => ¬ (r.quietCycles ≤ (ag.consecutiveQuietCycles : Int) + 1)) ∧
      (∀ r ∈ ag.settleResolvers,
        r.quietCycles ≤ (ag.consecutiveQuietCycles : Int) + 1 →
        AgEvent.settleResolved r.rid ∈ (runTick ag).2.1) := by
    intro ag hch
    rw [runTick_not_changed ag hch]
    refine ⟨rfl, ?_, ?_⟩
    · simp [Agent.checkSettleResolvers]
    · intro r hr hle
      simp only [Agent.checkSettleResolvers]
      apply List.mem_flatMap.mpr
      refine ⟨r, List.mem_filter.mpr ⟨hr, ?_⟩, by simp⟩
      simp only [decide_eq_true_eq, Nat.cast_add, Nat.cast_one]
      exact hle
  refine ⟨?_, hb, ?_⟩
  · intro ag hch
    simp [runTick, hch]
  · intro ag r1 r3 hch h1 h3 hq1 hq3
    obtain ⟨-, hkept, hres⟩ := hb ag hch
    refine ⟨hres r1 h1 (le_of_eq hq1), ?_⟩
    rw [hkept]
    exact List.mem_filter.mpr ⟨h3, by simpa using by omega⟩

def w9Base : AgentState Nat := (runTick (Agent.start (mkAgent 0 []).1).1).1

def w9Agent : AgentState Nat :=
  (Agent.settle (Agent.settle w9Base 1 1000 1).1 3 1000 3).1

/-- Witness for C9: a quiet agent with two pending requests of
thresholds 1 and 3; on the next (idle) tick the counter reaches 1, the
threshold-1 request is resolved and the threshold-3 request is still
pending; and on a flag-set agent the counter ends at 0. -/
theorem c9_idle_counter_and_settle_order_witness :
    w9Agent.stateChanged = false ∧
    AgEvent.settleResolved 1 ∈ (runTick w9Agent).2.1 ∧
    ({ rid := 3, quietCycles := 3, timeoutMs := 1000 } : SettleResolver)
      ∈ (runTick w9Agent).1.settleResolvers ∧
    (runTick (Agent.start (mkAgent 0 []).1).1).1.consecutiveQuietCycles = 0 := by
  have hc := c9_idle_counter_and_settle_order.2.2 w9Agent
    { rid := 1, quietCycles := 1, timeoutMs := 1000 }
    { rid := 3, quietCycles := 3, timeoutMs := 1000 }
    (by decide) (by decide) (by decide) (by decide) (by decide)
  exact ⟨by decide, hc.1, hc.2,
    c9_idle_counter_and_settle_order.1 (Agent.start (mkAgent 0 []).1).1 (by decide)⟩

end Agentiny
